import Mathlib

/-!
Verification development for the multi-branch coffee-shop backend
(`src/auth.py`, `src/main.py`, `src/sheets_exporter.py`, `src/models.py`).

The Python code is shallowly embedded: ORM rows become Lean structures, an
ORM session's table contents become lists, SQL `filter`/`first` become
`List.filter`/`List.find?`, raised `HTTPException`s become `Except` errors,
and the Google-Sheets worksheet state becomes a function from tab
identifiers to the list of rows currently stored in that tab
(`get_all_values` reads it, `clear`+`update` overwrite it).

Floats (`revenue`, `unit_cost`, ...) are modelled as rationals; datetimes
are modelled as natural-number timestamps with `dateOf` playing the role of
SQL `func.date` (date truncation).  The f-string tab titles `Sales_b{id}` /
`Expenses_b{id}` are modelled by the tab-key type `TabId` (the formatting
is injective, and the two families never collide).
-/

namespace Bruvver

/-- `models.PermissionLevel` / `schemas.PermissionLevel`: the two stored
permission levels, `view_only` and `full_access`. -/
inductive PermissionLevel where
  | view_only
  | full_access
deriving DecidableEq, Repr

/-- One row of `user_branch_permissions` (`models.UserBranchPermission`). -/
structure UserBranchPermission where
  id : Nat
  user_id : Nat
  branch_id : Nat
  permission_level : PermissionLevel
  created_at : Nat
  updated_at : Nat
deriving DecidableEq, Repr

/-- One row of `branches` (`models.Branch`); fields not consulted by the
verified operations (location, phone, ...) are omitted. -/
structure Branch where
  id : Nat
  name : String
  is_active : Bool
deriving DecidableEq, Repr

/-- One row of `menu_items` (`models.MenuItem`); `branch_id` is nullable. -/
structure MenuItem where
  id : Nat
  name : String
  price : ℚ
  is_available : Bool
  branch_id : Option Nat
deriving DecidableEq, Repr

/-- One row of `daily_sales` (`models.DailySale`).  `sale_date` is a
timestamp; `dateOf` truncates it to a calendar day. -/
structure DailySale where
  id : Nat
  menu_item_id : Nat
  branch_id : Nat
  quantity : Nat
  revenue : ℚ
  payment_method : String
  sale_date : Nat
deriving DecidableEq, Repr

/-- One row of `daily_expenses` (`models.DailyExpense`); `quantity` and
`unit` are nullable columns. -/
structure DailyExpense where
  id : Nat
  branch_id : Nat
  category : String
  item_name : String
  description : String
  quantity : Option ℚ
  unit : String
  unit_cost : ℚ
  total_amount : ℚ
  expense_date : Nat
  created_by : Nat
deriving DecidableEq, Repr

/-- The relational state the verified endpoints read and write: the table
contents of one ORM session. -/
structure DB where
  branches : List Branch
  menu_items : List MenuItem
  sales : List DailySale
  expenses : List DailyExpense
  permissions : List UserBranchPermission
deriving DecidableEq, Repr

/-- The authenticated principal (`models.Admin` row as seen by the route
handlers).  `role` is `none` when the user object has no `role` attribute
at all — the `hasattr(current_user, 'role')` guards in `main.py`
distinguish that case, so the embedding must too. -/
structure User where
  id : Nat
  role : Option String
  is_active : Bool
deriving DecidableEq, Repr

/-- The `HTTPException`s raised by the verified handlers, by detail
message. -/
inductive ApiError where
  /-- 403 "No access to this branch" -/
  | noBranchAccess
  /-- 403 "Insufficient permissions for this branch" -/
  | insufficientPermission
  /-- 403 "No branch permissions assigned" / "No branch access assigned" -/
  | noBranchPermissionsAssigned
  /-- 403 "Admin access required" -/
  | adminRequired
  /-- 404 "Branch not found" -/
  | branchNotFound
  /-- 404 "Menu item not found" -/
  | menuItemNotFound
  /-- 400 "Menu item ... is not available" -/
  | itemNotAvailable
  /-- 400 "Invalid payment_method. Use 'cash' or 'gpay'" -/
  | invalidPaymentMethod
  /-- 400 "Cannot delete branch with associated menu items, sales, or expenses." -/
  | branchHasAssociations
  /-- 400 "Invalid permission_level" / "Invalid request body" -/
  | invalidRequestBody
deriving DecidableEq, Repr

/-- The permission-row lookup shared by several handlers:
`db.query(UserBranchPermission).filter(user_id == u, branch_id == b).first()`. -/
def findPermission (perms : List UserBranchPermission) (uid bid : Nat) :
    Option UserBranchPermission :=
  perms.find? (fun p => decide (p.user_id = uid ∧ p.branch_id = bid))

/-- `auth.check_branch_permission` (auth.py:92-113): admins pass
unconditionally; otherwise the `(user_id, branch_id)` permission row is
looked up, its absence is a 403 `No access to this branch`, and a
`view_only` row faced with a `full_access` requirement is a 403
`Insufficient permissions for this branch`. -/
def check_branch_permission (perms : List UserBranchPermission)
    (branch_id : Nat) (required_permission : PermissionLevel)
    (current_user : User) : Except ApiError Bool :=
  if current_user.role = some "admin" then
    .ok true
  else
    match findPermission perms current_user.id branch_id with
    | none => .error .noBranchAccess
    | some permission =>
      if required_permission = .full_access ∧
          permission.permission_level ≠ .full_access then
        .error .insufficientPermission
      else
        .ok true

/-! ## Sheets exporter (`sheets_exporter.py`) -/

/-- A spreadsheet cell.  Strings, integers and 2-decimal-rounded floats are
written by the exporter; `gspread`'s round-trip of a written value is
modelled as the identity. -/
inductive Cell where
  | str (s : String)
  | int (n : Nat)
  | rat (q : ℚ)
deriving DecidableEq, Repr

/-- One worksheet row, as `get_all_values` returns it. -/
abbrev Row := List Cell

/-- A worksheet tab key.  `export_day` addresses tabs by the f-string
titles `Sales_b{branch_id}` and `Expenses_b{branch_id}`; the formatting is
injective and the two families never collide, which this key type captures
directly. -/
inductive TabId where
  | sales (branch_id : Nat)
  | expenses (branch_id : Nat)
deriving DecidableEq, Repr

/-- The whole spreadsheet: tab contents by title.  A tab that was never
written reads as `[]` (both a missing tab before `_get_or_create_ws` and a
freshly added empty worksheet yield no values). -/
def SheetState := TabId → List Row

/-- `date.isoformat()` of a model day number: an injective rendering of the
day as a string. -/
def dateIso (d : Nat) : String := toString d

/-- SQL `func.date(·)`: truncate a timestamp to its calendar day. -/
def dateOf (ts : Nat) : Nat := ts / 86400

/-- Python `round(x, 2)` on the exported monetary values. -/
def round2 (q : ℚ) : ℚ := (⌊q * 100 + 1/2⌋ : ℤ) / 100

/-- `headers_sales` of `export_day` (sheets_exporter.py:103-106). -/
def headers_sales : Row :=
  [.str "date", .str "branch_id", .str "branch_name", .str "menu_item_id",
   .str "item_name", .str "quantity", .str "revenue"]

/-- `headers_exp` of `export_day` (sheets_exporter.py:107-110). -/
def headers_exp : Row :=
  [.str "date", .str "branch_id", .str "category", .str "item_name",
   .str "quantity", .str "unit", .str "unit_cost", .str "total_amount",
   .str "description"]

/-- The row-retention test of `_replace_data_for_date`
(sheets_exporter.py:64-66): keep a row iff `len(row) > 0 and
row[0] != target_date_iso`. -/
def keepRow (target_date_iso : String) (row : Row) : Bool :=
  match row with
  | [] => false
  | c :: _ => decide (c ≠ Cell.str target_date_iso)

/-- `_replace_data_for_date` (sheets_exporter.py:39-75) as a pure function
from the tab's previous contents to its next contents: re-assert the
header, drop every remaining row whose first cell equals the target ISO
date, append the new rows, and write everything back in one update. -/
def _replace_data_for_date (ws : List Row) (target_date_iso : String)
    (new_rows : List Row) (headers : Row) : List Row :=
  -- `if not all_data or all_data[0] != headers:` — both inner branches set
  -- `existing_data = all_data[1:]`, then `all_data = [headers] + existing_data`.
  let all_data :=
    if ws = [] ∨ ws.head? ≠ some headers then headers :: ws.drop 1 else ws
  -- `filtered_rows = [all_data[0]]` plus the kept body rows.
  let filtered_rows := all_data.take 1 ++ (all_data.drop 1).filter (keepRow target_date_iso)
  -- `filtered_rows.extend(new_rows)`
  let final := filtered_rows ++ new_rows
  -- `if filtered_rows: ws.clear(); ws.update(...)` — when nothing would be
  -- written the tab is left as it was.
  if final = [] then ws else final

/-- One sales export row (sheets_exporter.py:144-152), built from the
sale joined with its branch and menu item. -/
def salesRowOf (target_iso : String) (s : DailySale) (br : Branch)
    (mi : MenuItem) : Row :=
  [.str target_iso, .int s.branch_id, .str br.name, .int s.menu_item_id,
   .str mi.name, .int s.quantity, .rat (round2 s.revenue)]

/-- The sales query of `export_day` (sheets_exporter.py:127-152): sales of
the branch whose `sale_date` falls on the target day, inner-joined with
`branches` on `Branch.id == DailySale.branch_id` and with `menu_items` on
`MenuItem.id == DailySale.menu_item_id`, one export row per joined result. -/
def salesJoinRows (db : DB) (target_date : Nat) (bid : Nat)
    (target_iso : String) : List Row :=
  (db.sales.filter (fun s =>
      decide (dateOf s.sale_date = target_date) && decide (s.branch_id = bid))).flatMap
    (fun s =>
      (db.branches.filter (fun br => decide (br.id = s.branch_id))).flatMap
        (fun br =>
          (db.menu_items.filter (fun mi => decide (mi.id = s.menu_item_id))).map
            (fun mi => salesRowOf target_iso s br mi)))

/-- One expense export row (sheets_exporter.py:166-176); a NULL quantity is
written as the empty string. -/
def expenseRowOf (target_iso : String) (e : DailyExpense) : Row :=
  [.str target_iso, .int e.branch_id, .str e.category, .str e.item_name,
   (match e.quantity with | some q => .rat q | none => .str ""),
   .str e.unit, .rat (round2 e.unit_cost), .rat (round2 e.total_amount),
   .str e.description]

/-- The expense query of `export_day` (sheets_exporter.py:159-176):
expenses of the branch whose `expense_date` falls on the target day, one
export row each. -/
def expenseRows (db : DB) (target_date : Nat) (bid : Nat)
    (target_iso : String) : List Row :=
  (db.expenses.filter (fun e =>
      decide (dateOf e.expense_date = target_date) && decide (e.branch_id = bid))).map
    (expenseRowOf target_iso)

/-- The branch-scope computation of `export_day`
(sheets_exporter.py:112-119): a concrete `branch_id` selects the first
branch row with that id (or nothing), `None` selects
`db.query(Branch).all()` — every branch row. -/
def branchesToExport (db : DB) (branch_id : Option Nat) : List Branch :=
  match branch_id with
  | some bid =>
    match db.branches.find? (fun b => decide (b.id = bid)) with
    | some b => [b]
    | none => []
  | none => db.branches

/-- Overwrite one tab's contents. -/
def updateTab (s : SheetState) (t : TabId) (rows : List Row) : SheetState :=
  fun t' => if t' = t then rows else s t'

/-- The per-branch body of `export_day`'s loop
(sheets_exporter.py:122-180): replace the branch's sales tab, then its
expenses tab. -/
def processBranch (db : DB) (target_date : Nat) (s : SheetState)
    (b : Branch) : SheetState :=
  let target_iso := dateIso target_date
  let s1 := updateTab s (.sales b.id)
    (_replace_data_for_date (s (.sales b.id)) target_iso
      (salesJoinRows db target_date b.id target_iso) headers_sales)
  updateTab s1 (.expenses b.id)
    (_replace_data_for_date (s1 (.expenses b.id)) target_iso
      (expenseRows db target_date b.id target_iso) headers_exp)

/-- `export_day` (sheets_exporter.py:94-180) with a validly configured
spreadsheet: process every branch in scope sequentially. -/
def export_day (db : DB) (target_date : Nat) (branch_id : Option Nat)
    (s : SheetState) : SheetState :=
  (branchesToExport db branch_id).foldl (processBranch db target_date) s

/-- The fresh rows `export_day` computes for one tab. -/
def tabNewRows (db : DB) (d : Nat) : TabId → List Row
  | .sales bid => salesJoinRows db d bid (dateIso d)
  | .expenses bid => expenseRows db d bid (dateIso d)

/-- The header `export_day` asserts for one tab. -/
def tabHeaders : TabId → Row
  | .sales _ => headers_sales
  | .expenses _ => headers_exp

/-- The transformation `export_day` applies to one tab's contents when the
tab is in scope. -/
def tabFn (db : DB) (d : Nat) (t : TabId) (v : List Row) : List Row :=
  _replace_data_for_date v (dateIso d) (tabNewRows db d t) (tabHeaders t)

/-- The effect of processing one branch on one tab's contents. -/
def pointStep (db : DB) (d : Nat) (b : Branch) (t : TabId) (v : List Row) :
    List Row :=
  if t = .expenses b.id then tabFn db d t v
  else if t = .sales b.id then tabFn db d t v
  else v

/-- A spreadsheet with every tab empty (never written). -/
def emptySheet : SheetState := fun _ => []

/-- Concrete database: a single branch that is inactive and nothing else. -/
def dbInactiveOnly : DB :=
  { branches := [{ id := 1, name := "Downtown", is_active := false }],
    menu_items := [], sales := [], expenses := [], permissions := [] }

/-! ## Route handlers (`main.py`) -/

/-- Request body of `POST /api/sales` (`schemas.DailySaleCreate`). -/
structure DailySaleCreate where
  menu_item_id : Nat
  branch_id : Nat
  quantity : Nat
  payment_method : String
deriving DecidableEq, Repr

/-- Request body of `POST /api/expenses` (`schemas.DailyExpenseCreate`). -/
structure DailyExpenseCreate where
  branch_id : Nat
  category : String
  item_name : String
  description : String
  quantity : Option ℚ
  unit : String
  unit_cost : ℚ
  total_amount : ℚ
  expense_date : Option Nat
deriving DecidableEq, Repr

/-- Remove the first list element satisfying `p` (the effect of
`db.delete(row)` on the row returned by `.first()`). -/
def removeFirst (p : α → Bool) : List α → List α
  | [] => []
  | x :: xs => if p x then xs else x :: removeFirst p xs

/-- Rewrite the first list element satisfying `p` (the effect of mutating
the ORM object returned by `.first()` and committing). -/
def updateFirst (p : α → Bool) (f : α → α) : List α → List α
  | [] => []
  | x :: xs => if p x then f x :: xs else x :: updateFirst p f xs

/-- The worker gate that `record_sale` (main.py:2486-2497) and
`create_expense` (main.py:1202-1213) both contain verbatim: under
`hasattr(current_user, 'role') and current_user.role == "worker"`, the
`(user, branch)` permission row must exist (403 `No access to this
branch`) and its level must be `full_access` (403 `Insufficient
permissions for this branch`); any other or missing role passes. -/
def worker_full_access_gate (perms : List UserBranchPermission)
    (current_user : User) (branch_id : Nat) : Except ApiError Unit :=
  if current_user.role = some "worker" then
    match findPermission perms current_user.id branch_id with
    | none => .error .noBranchAccess
    | some perm =>
      if perm.permission_level ≠ .full_access then
        .error .insufficientPermission
      else
        .ok ()
  else
    .ok ()

/-- `record_sale` (`POST /api/sales`, main.py:2478-2529).  After the
worker gate, the menu item must exist and be available and the payment
method must be `cash` or `gpay`; revenue is recomputed server-side as
`price * quantity` and the sale is inserted with the current timestamp. -/
def record_sale (db : DB) (current_user : User) (sale : DailySaleCreate)
    (now newId : Nat) : Except ApiError (DB × DailySale) :=
  match worker_full_access_gate db.permissions current_user sale.branch_id with
  | .error e => .error e
  | .ok _ =>
    match db.menu_items.find? (fun mi => decide (mi.id = sale.menu_item_id)) with
    | none => .error .menuItemNotFound
    | some menu_item =>
      if ¬ menu_item.is_available then
        .error .itemNotAvailable
      else if sale.payment_method ≠ "cash" ∧ sale.payment_method ≠ "gpay" then
        .error .invalidPaymentMethod
      else
        let db_sale : DailySale :=
          { id := newId
            menu_item_id := sale.menu_item_id
            branch_id := sale.branch_id
            quantity := sale.quantity
            revenue := menu_item.price * sale.quantity
            payment_method := sale.payment_method
            sale_date := now }
        .ok ({ db with sales := db.sales ++ [db_sale] }, db_sale)

/-- `create_expense` (`POST /api/expenses`, main.py:1194-1232).  After the
worker gate, the branch must exist; the total is recomputed as
`(quantity or 0) * (unit_cost or 0)` and the expense inserted
(`expense_date` falls back to the column default, the current time). -/
def create_expense (db : DB) (current_user : User)
    (expense : DailyExpenseCreate) (now newId : Nat) :
    Except ApiError (DB × DailyExpense) :=
  match worker_full_access_gate db.permissions current_user expense.branch_id with
  | .error e => .error e
  | .ok _ =>
    match db.branches.find? (fun b => decide (b.id = expense.branch_id)) with
    | none => .error .branchNotFound
    | some _ =>
      let recalculated_total := (expense.quantity.getD 0) * expense.unit_cost
      let db_expense : DailyExpense :=
        { id := newId
          branch_id := expense.branch_id
          category := expense.category
          item_name := expense.item_name
          description := expense.description
          quantity := expense.quantity
          unit := expense.unit
          unit_cost := expense.unit_cost
          total_amount := recalculated_total
          expense_date := expense.expense_date.getD now
          created_by := current_user.id }
      .ok ({ db with expenses := db.expenses ++ [db_expense] }, db_expense)

/-- `get_sales_enhanced` (`GET /api/sales`, main.py:2393-2433).  Workers
are restricted to the branches of their permission rows; zero rows is a
403 before any data is returned, and a requested branch outside the rows
is a 403.  `if branch_id ...` follows Python truthiness (`0` counts as
absent).  The SQL `order_by(sale_date.desc())` is not modelled: the
result keeps table order, on which `offset(skip).limit(limit)` act. -/
def get_sales_enhanced (db : DB) (current_user : User)
    (branch_id : Option Nat) (date_filter : Option Nat)
    (item_id : Option Nat) (skip limit : Nat) :
    Except ApiError (List DailySale) :=
  let afterScope : Except ApiError (List DailySale) :=
    if current_user.role = some "worker" then
      let user_branch_ids :=
        (db.permissions.filter (fun p => decide (p.user_id = current_user.id))).map
          (fun p => p.branch_id)
      if user_branch_ids = [] then
        .error .noBranchPermissionsAssigned
      else
        match branch_id with
        | some bid =>
          if bid ≠ 0 ∧ bid ∉ user_branch_ids then
            .error .noBranchAccess
          else
            let target_branch_ids := if bid ≠ 0 then [bid] else user_branch_ids
            .ok (db.sales.filter (fun s => decide (s.branch_id ∈ target_branch_ids)))
        | none =>
          .ok (db.sales.filter (fun s => decide (s.branch_id ∈ user_branch_ids)))
    else
      match branch_id with
      | some bid =>
        if bid ≠ 0 then
          .ok (db.sales.filter (fun s => decide (s.branch_id = bid)))
        else
          .ok db.sales
      | none => .ok db.sales
  match afterScope with
  | .error e => .error e
  | .ok rows =>
    let rows : List DailySale := match date_filter with
      | some d => rows.filter (fun s => decide (dateOf s.sale_date = d))
      | none => rows
    let rows : List DailySale := match item_id with
      | some iid => rows.filter (fun s => decide (s.menu_item_id = iid))
      | none => rows
    .ok ((rows.drop skip).take limit)

/-- `get_expenses` (`GET /api/expenses`, main.py:1142-1192).  Workers with
a concrete `branch_id` need a permission row for it (this path tests
`branch_id is not None`, not truthiness); unscoped workers get their
permission branches, or a 403 when they hold no rows.  As for sales,
`order_by(expense_date.desc())` is not modelled (table order is kept). -/
def get_expenses (db : DB) (current_user : User) (branch_id : Option Nat)
    (date : Option Nat) (category : Option String) (skip limit : Nat) :
    Except ApiError (List DailyExpense) :=
  let afterScope : Except ApiError (List DailyExpense) :=
    if current_user.role = some "worker" then
      let user_branch_ids :=
        (db.permissions.filter (fun p => decide (p.user_id = current_user.id))).map
          (fun p => p.branch_id)
      match branch_id with
      | some bid =>
        if bid ∉ user_branch_ids then
          .error .noBranchAccess
        else
          .ok (db.expenses.filter (fun e => decide (e.branch_id = bid)))
      | none =>
        if user_branch_ids = [] then
          .error .noBranchPermissionsAssigned
        else
          .ok (db.expenses.filter (fun e => decide (e.branch_id ∈ user_branch_ids)))
    else
      match branch_id with
      | some bid =>
        if bid ≠ 0 then
          .ok (db.expenses.filter (fun e => decide (e.branch_id = bid)))
        else
          .ok db.expenses
      | none => .ok db.expenses
  match afterScope with
  | .error e => .error e
  | .ok rows =>
    let rows : List DailyExpense := match date with
      | some d => rows.filter (fun e => decide (dateOf e.expense_date = d))
      | none => rows
    let rows : List DailyExpense := match category with
      | some c => rows.filter (fun e => decide (e.category = c))
      | none => rows
    .ok ((rows.drop skip).take limit)

/-- `assign_branch_permission`
(`POST /api/admin/assign-branch-permission`, main.py:3299-3332): admins
only; the level string must be `view_only` or `full_access`; an existing
`(user_id, branch_id)` row has its level and `updated_at` overwritten,
otherwise a fresh row is inserted. -/
def assign_branch_permission (db : DB) (current_user : User)
    (user_id branch_id : Nat) (permission_level : String)
    (now newId : Nat) : Except ApiError DB :=
  if ¬ current_user.role = some "admin" then
    .error .adminRequired
  else if permission_level ≠ "view_only" ∧ permission_level ≠ "full_access" then
    .error .invalidRequestBody
  else
    -- The handler stores the validated level string; the enum column maps
    -- it to the corresponding `PermissionLevel` value.
    let level :=
      if permission_level = "full_access" then PermissionLevel.full_access
      else PermissionLevel.view_only
    match findPermission db.permissions user_id branch_id with
    | some _ =>
      .ok { db with
        permissions := updateFirst
          (fun p => decide (p.user_id = user_id ∧ p.branch_id = branch_id))
          (fun p => { p with permission_level := level, updated_at := now })
          db.permissions }
    | none =>
      .ok { db with
        permissions := db.permissions ++
          [{ id := newId, user_id := user_id, branch_id := branch_id,
             permission_level := level, created_at := now, updated_at := now }] }

/-- `delete_branch` (`DELETE /api/branches/{branch_id}`,
main.py:1114-1137): guarded by
`if hasattr(current_user, 'role') and current_user.role != "admin"`
(a role-less user passes); the branch must exist; if any menu item, sale
or expense references it a 400 is raised and nothing changes, otherwise
the branch row is deleted. -/
def delete_branch (db : DB) (current_user : User) (branch_id : Nat) :
    Except ApiError DB :=
  -- `hasattr(current_user, 'role') and current_user.role != "admin"`:
  -- a user object with no role attribute is not rejected here.
  if (match current_user.role with
      | some r => decide (r ≠ "admin")
      | none => false) then
    .error .adminRequired
  else
    match db.branches.find? (fun b => decide (b.id = branch_id)) with
    | none => .error .branchNotFound
    | some _ =>
      let has_menu_items :=
        db.menu_items.any (fun m => decide (m.branch_id = some branch_id))
      let has_sales := db.sales.any (fun s => decide (s.branch_id = branch_id))
      let has_expenses :=
        db.expenses.any (fun e => decide (e.branch_id = branch_id))
      if has_menu_items || has_sales || has_expenses then
        .error .branchHasAssociations
      else
        .ok { db with
          branches := removeFirst (fun b => decide (b.id = branch_id)) db.branches }

/-! ## Concrete fixtures used by witnesses and counterexamples -/

/-- The `(user_id, branch_id)` row predicate used by the permission
lookups. -/
def pairPred (uid bid : Nat) : UserBranchPermission → Bool :=
  fun p => decide (p.user_id = uid ∧ p.branch_id = bid)

/-- A `view_only` permission row for user 7 on branch 1. -/
def viewPermRow : UserBranchPermission :=
  { id := 1, user_id := 7, branch_id := 1,
    permission_level := .view_only, created_at := 0, updated_at := 0 }

/-- Concrete database: one active branch, one menu item, one sale and one
expense, both dated day 2 (timestamps 172800/172801). -/
def dbOneBranch : DB :=
  { branches := [{ id := 1, name := "Main", is_active := true }],
    menu_items := [{ id := 10, name := "Latte", price := 3,
                     is_available := true, branch_id := some 1 }],
    sales := [{ id := 1, menu_item_id := 10, branch_id := 1, quantity := 2,
                revenue := 6, payment_method := "cash",
                sale_date := 172800 }],
    expenses := [{ id := 1, branch_id := 1, category := "milk",
                   item_name := "Milk", description := "",
                   quantity := some 2, unit := "l", unit_cost := 1,
                   total_amount := 2, expense_date := 172801,
                   created_by := 1 }],
    permissions := [] }

/-- `dbOneBranch` with a lone `view_only` grant for user 7. -/
def dbWithViewPerm : DB := { dbOneBranch with permissions := [viewPermRow] }

/-- A user object carrying no `role` attribute. -/
def noRoleUser : User := { id := 7, role := none, is_active := true }

/-- User 7 as a worker. -/
def workerUser7 : User := { id := 7, role := some "worker", is_active := true }

/-- User 7 as an admin. -/
def adminUser7 : User := { id := 7, role := some "admin", is_active := true }

/-- A valid sale request for branch 1. -/
def saleReq : DailySaleCreate :=
  { menu_item_id := 10, branch_id := 1, quantity := 1,
    payment_method := "cash" }

/-- A valid expense request for branch 1. -/
def expenseReq : DailyExpenseCreate :=
  { branch_id := 1, category := "milk", item_name := "Milk",
    description := "", quantity := some 1, unit := "l", unit_cost := 2,
    total_amount := 2, expense_date := none }

end Bruvver

namespace Bruvver

/-! ## Theorems -/

/-- C1: permission evaluation is fully characterized: an admin is allowed
unconditionally (for any permission table, branch and required level); a
non-admin is allowed iff a permission row for `(user.id, branch)` is found
and either the required level is `view_only` or that row's level is
`full_access`; with no row the result is the `No access to this branch`
error, and with a found row that is not `full_access` against a
`full_access` requirement the result is the
`Insufficient permissions for this branch` error. -/
theorem check_branch_permission_characterization
    (perms : List UserBranchPermission) (bid : Nat)
    (required : PermissionLevel) (u : User) :
    (check_branch_permission perms bid required u = .ok true ↔
      u.role = some "admin" ∨
      ∃ p, findPermission perms u.id bid = some p ∧
        (required = .view_only ∨ p.permission_level = .full_access)) ∧
    (check_branch_permission perms bid required u = .error .noBranchAccess ↔
      u.role ≠ some "admin" ∧ findPermission perms u.id bid = none) ∧
    (check_branch_permission perms bid required u = .error .insufficientPermission ↔
      u.role ≠ some "admin" ∧
      ∃ p, findPermission perms u.id bid = some p ∧
        required = .full_access ∧ p.permission_level ≠ .full_access) := by
  unfold check_branch_permission
  by_cases hr : u.role = some "admin"
  · simp [hr]
  · simp only [hr, if_false]
    cases hfind : findPermission perms u.id bid with
    | none => simp [hr, hfind]
    | some p =>
      cases hreq : required <;> cases hlev : p.permission_level <;>
        simp [hr, hfind, hlev]

/-- Witness for C1 at a concrete input: a worker holding a `view_only` row
for branch 5 and requiring `full_access` is denied with
`Insufficient permissions for this branch`. -/
theorem check_branch_permission_characterization_witness :
    check_branch_permission
      [{ id := 1, user_id := 7, branch_id := 5,
         permission_level := .view_only, created_at := 0, updated_at := 0 }]
      5 .full_access { id := 7, role := some "worker", is_active := true } =
      .error .insufficientPermission :=
  (check_branch_permission_characterization
      [{ id := 1, user_id := 7, branch_id := 5,
         permission_level := .view_only, created_at := 0, updated_at := 0 }]
      5 .full_access { id := 7, role := some "worker", is_active := true }).2.2.mpr
    ⟨by decide,
     { id := 1, user_id := 7, branch_id := 5,
       permission_level := .view_only, created_at := 0, updated_at := 0 },
     by decide, by decide, by decide⟩

/-! ### `_replace_data_for_date` structure -/

/-- Closed form of `_replace_data_for_date`: the next tab contents are
always the header, then the kept body rows of the previous contents, then
the new rows.  (When the previous first row differs from the header it is
part of no case of this formula's `drop 1` — it is discarded.) -/
theorem replace_closed_form (ws : List Row) (iso : String)
    (new_rows : List Row) (headers : Row) :
    _replace_data_for_date ws iso new_rows headers =
      headers :: ((ws.drop 1).filter (keepRow iso) ++ new_rows) := by
  unfold _replace_data_for_date
  by_cases h : ws = [] ∨ ws.head? ≠ some headers
  · simp only [h, if_true]
    simp
  · simp only [h, if_false]
    push_neg at h
    obtain ⟨hne, hhd⟩ := h
    cases ws with
    | nil => exact absurd rfl hne
    | cons x t =>
      simp only [List.head?_cons, Option.some.injEq] at hhd
      subst hhd
      simp

/-- Filtering with `keepRow` twice filters once. -/
theorem filter_keepRow_idem (l : List Row) (iso : String) :
    (l.filter (keepRow iso)).filter (keepRow iso) = l.filter (keepRow iso) := by
  simp [List.filter_filter]

/-- Every row produced by the sales query starts with the target ISO date,
so a subsequent run's retention test drops it. -/
theorem salesJoinRows_not_kept (db : DB) (d bid : Nat) (iso : String) :
    ∀ r ∈ salesJoinRows db d bid iso, keepRow iso r = false := by
  intro r hr
  unfold salesJoinRows at hr
  obtain ⟨s, _, hr⟩ := List.mem_flatMap.mp hr
  obtain ⟨br, _, hr⟩ := List.mem_flatMap.mp hr
  obtain ⟨mi, _, hr⟩ := List.mem_map.mp hr
  subst hr
  simp [salesRowOf, keepRow]

/-- Every row produced by the expense query starts with the target ISO
date, so a subsequent run's retention test drops it. -/
theorem expenseRows_not_kept (db : DB) (d bid : Nat) (iso : String) :
    ∀ r ∈ expenseRows db d bid iso, keepRow iso r = false := by
  intro r hr
  unfold expenseRows at hr
  obtain ⟨e, _, hr⟩ := List.mem_map.mp hr
  subst hr
  simp [expenseRowOf, keepRow]

/-- `_replace_data_for_date` is idempotent whenever none of the new rows
would survive its own retention test (which holds for both exporter
queries, whose rows all start with the target date). -/
theorem replace_idem (ws : List Row) (iso : String) (new_rows : List Row)
    (headers : Row) (hnew : ∀ r ∈ new_rows, keepRow iso r = false) :
    _replace_data_for_date (_replace_data_for_date ws iso new_rows headers)
        iso new_rows headers =
      _replace_data_for_date ws iso new_rows headers := by
  rw [replace_closed_form, replace_closed_form]
  have hdrop :
      List.drop 1 (headers ::
          (List.filter (keepRow iso) (List.drop 1 ws) ++ new_rows)) =
        List.filter (keepRow iso) (List.drop 1 ws) ++ new_rows := rfl
  have hnil : List.filter (keepRow iso) new_rows = [] :=
    List.filter_eq_nil_iff.mpr (fun r hr => by simp [hnew r hr])
  rw [hdrop, List.filter_append, filter_keepRow_idem, hnil]
  simp

/-! ### Pointwise decomposition of `export_day` -/

/-- `processBranch` acts on each tab independently, as `pointStep`. -/
theorem processBranch_apply (db : DB) (d : Nat) (s : SheetState) (b : Branch)
    (t : TabId) : processBranch db d s b t = pointStep db d b t (s t) := by
  cases t with
  | sales x =>
    by_cases hx : x = b.id
    · subst hx
      simp [processBranch, pointStep, updateTab, tabFn, tabNewRows, tabHeaders]
    · simp [processBranch, pointStep, updateTab, hx]
  | expenses x =>
    by_cases hx : x = b.id
    · subst hx
      simp [processBranch, pointStep, updateTab, tabFn, tabNewRows, tabHeaders]
    · simp [processBranch, pointStep, updateTab, hx]

/-- The branch loop acts on each tab independently. -/
theorem foldl_pointwise (db : DB) (d : Nat) (bs : List Branch)
    (s : SheetState) (t : TabId) :
    (bs.foldl (processBranch db d) s) t =
      bs.foldl (fun v b => pointStep db d b t v) (s t) := by
  induction bs generalizing s with
  | nil => rfl
  | cons b bs ih =>
    simp only [List.foldl_cons]
    rw [ih, processBranch_apply]

/-- On a fixed tab, processing a branch either leaves the contents alone or
applies the tab's own replacement. -/
theorem pointStep_cases (db : DB) (d : Nat) (b : Branch) (t : TabId) :
    (∀ v, pointStep db d b t v = v) ∨
    (∀ v, pointStep db d b t v = tabFn db d t v) := by
  unfold pointStep
  by_cases h1 : t = TabId.expenses b.id
  · right; intro v; simp [h1]
  · by_cases h2 : t = TabId.sales b.id
    · right; intro v; simp [h1, h2]
    · left; intro v; simp [h1, h2]

/-- Each tab's replacement is idempotent. -/
theorem tabFn_idem (db : DB) (d : Nat) (t : TabId) (v : List Row) :
    tabFn db d t (tabFn db d t v) = tabFn db d t v := by
  cases t with
  | sales bid => exact replace_idem _ _ _ _ (salesJoinRows_not_kept db d bid _)
  | expenses bid => exact replace_idem _ _ _ _ (expenseRows_not_kept db d bid _)

/-- The tab replacement commutes over the branch loop on that tab. -/
theorem foldl_pointStep_comm (db : DB) (d : Nat) (t : TabId)
    (bs : List Branch) (v : List Row) :
    bs.foldl (fun v b => pointStep db d b t v) (tabFn db d t v) =
      tabFn db d t (bs.foldl (fun v b => pointStep db d b t v) v) := by
  induction bs generalizing v with
  | nil => rfl
  | cons b bs ih =>
    rcases pointStep_cases db d b t with h | h
    · simp only [List.foldl_cons, h, ih]
    · simp only [List.foldl_cons, h, tabFn_idem, ih]

/-- Running the branch loop on a tab twice equals running it once. -/
theorem foldl_pointStep_idem (db : DB) (d : Nat) (t : TabId)
    (bs : List Branch) (v : List Row) :
    bs.foldl (fun v b => pointStep db d b t v)
        (bs.foldl (fun v b => pointStep db d b t v) v) =
      bs.foldl (fun v b => pointStep db d b t v) v := by
  induction bs generalizing v with
  | nil => rfl
  | cons b bs ih =>
    rcases pointStep_cases db d b t with h | h
    · simp only [List.foldl_cons, h]
      exact ih v
    · simp only [List.foldl_cons, h]
      rw [foldl_pointStep_comm, ih, foldl_pointStep_comm, tabFn_idem,
        ← foldl_pointStep_comm]

/-- C9: when a worksheet's existing first row differs from the expected
header, `_replace_data_for_date` discards that first row entirely — even
when it is a data row rather than a stale header — and the rewritten tab
is the expected header, the remaining old rows that do not match the
target date, and the new rows. -/
theorem replace_discards_nonheader_first_row (ws : List Row) (iso : String)
    (new_rows : List Row) (headers : Row)
    (_hne : ws ≠ []) (_hhd : ws.head? ≠ some headers) :
    _replace_data_for_date ws iso new_rows headers =
      headers :: ((ws.drop 1).filter (keepRow iso) ++ new_rows) :=
  replace_closed_form ws iso new_rows headers

/-- Witness for C9: a two-column data row sits where the header should be;
after the rewrite it is gone, and only the header, the kept old row and
the new row remain. -/
theorem replace_discards_nonheader_first_row_witness :
    ([[Cell.str "5", Cell.int 1], [Cell.str "1"], [Cell.str "7"]] :
        List Row) ≠ [] ∧
    ([[Cell.str "5", Cell.int 1], [Cell.str "1"], [Cell.str "7"]] :
        List Row).head? ≠ some headers_sales ∧
    _replace_data_for_date
        [[Cell.str "5", Cell.int 1], [Cell.str "1"], [Cell.str "7"]] "1"
        [[Cell.str "1", Cell.int 9]] headers_sales =
      headers_sales ::
        ((([[Cell.str "5", Cell.int 1], [Cell.str "1"], [Cell.str "7"]] :
            List Row).drop 1).filter (keepRow "1") ++
          [[Cell.str "1", Cell.int 9]]) :=
  ⟨by decide, by decide,
   replace_discards_nonheader_first_row
     [[Cell.str "5", Cell.int 1], [Cell.str "1"], [Cell.str "7"]] "1"
     [[Cell.str "1", Cell.int 9]] headers_sales (by decide) (by decide)⟩

/-- C10: calling `export_day` with a `branch_id` that matches no branch
record is a silent no-op — no error, no tab created, no rows written, the
whole spreadsheet state unchanged. -/
theorem export_day_unknown_branch_noop (db : DB) (d bid : Nat)
    (s : SheetState) (h : ∀ b ∈ db.branches, b.id ≠ bid) :
    export_day db d (some bid) s = s := by
  have hfind : db.branches.find? (fun b => decide (b.id = bid)) = none :=
    List.find?_eq_none.mpr (fun b hb => by simp [h b hb])
  simp [export_day, branchesToExport, hfind]

/-- Witness for C10: exporting branch 9 of a database whose only branch
has id 1 leaves the (empty) spreadsheet untouched. -/
theorem export_day_unknown_branch_noop_witness :
    (∀ b ∈ dbInactiveOnly.branches, b.id ≠ 9) ∧
    export_day dbInactiveOnly 0 (some 9) emptySheet = emptySheet :=
  ⟨by decide,
   export_day_unknown_branch_noop dbInactiveOnly 0 9 emptySheet (by decide)⟩

/-- Counterexample to C4 as stated: with a database whose only branch is
inactive, the branch scope of `export_day(None)` is that whole branch
list, not the (empty) list of active branches — and the inactive branch's
sales tab does get written. -/
theorem export_scope_counterexample :
    branchesToExport dbInactiveOnly none ≠
      dbInactiveOnly.branches.filter (fun b => b.is_active) ∧
    export_day dbInactiveOnly 0 none emptySheet (TabId.sales 1) ≠
      emptySheet (TabId.sales 1) := by
  constructor
  · decide
  · decide

/-- C4 (amended): when `export_day` is called with `branch_id = None`, the
set of branches processed (and hence the set of tabs written) is the set
of all branch records, active or not; `is_active` is never consulted, so
inactive branches are exported too. -/
theorem branches_to_export_none (db : DB) :
    branchesToExport db none = db.branches ∧
    ∀ b ∈ db.branches, b.is_active = false →
      b ∈ branchesToExport db none :=
  ⟨rfl, fun b hb _ => by simpa [branchesToExport] using hb⟩

/-- Witness for the amended C4: the inactive branch of `dbInactiveOnly`
is in the processed set. -/
theorem branches_to_export_none_witness :
    branchesToExport dbInactiveOnly none = dbInactiveOnly.branches ∧
    ({ id := 1, name := "Downtown", is_active := false } : Branch) ∈
      branchesToExport dbInactiveOnly none :=
  ⟨(branches_to_export_none dbInactiveOnly).1,
   (branches_to_export_none dbInactiveOnly).2 _ (by decide) (by decide)⟩

/-- A list mapped to all-ones sums to its length. -/
theorem sum_map_eq_length {α : Type} (l : List α) (f : α → Nat)
    (h : ∀ a ∈ l, f a = 1) : (l.map f).sum = l.length := by
  induction l with
  | nil => rfl
  | cons a l ih =>
    simp only [List.map_cons, List.sum_cons, List.length_cons,
      h a (List.mem_cons_self a l),
      ih (fun x hx => h x (List.mem_cons_of_mem a hx))]
    omega

/-- Every sales export row carries the target ISO date in its first
column. -/
theorem salesJoinRows_head (db : DB) (d bid : Nat) (iso : String) :
    ∀ r ∈ salesJoinRows db d bid iso, r.head? = some (Cell.str iso) := by
  intro r hr
  unfold salesJoinRows at hr
  obtain ⟨sl, _, hr⟩ := List.mem_flatMap.mp hr
  obtain ⟨br, _, hr⟩ := List.mem_flatMap.mp hr
  obtain ⟨mi, _, hr⟩ := List.mem_map.mp hr
  subst hr
  simp [salesRowOf]

/-- Every expense export row carries the target ISO date in its first
column. -/
theorem expenseRows_head (db : DB) (d bid : Nat) (iso : String) :
    ∀ r ∈ expenseRows db d bid iso, r.head? = some (Cell.str iso) := by
  intro r hr
  unfold expenseRows at hr
  obtain ⟨e, _, hr⟩ := List.mem_map.mp hr
  subst hr
  simp [expenseRowOf]

/-- The expense query yields exactly one row per matching expense
record. -/
theorem expenseRows_length (db : DB) (d bid : Nat) (iso : String) :
    (expenseRows db d bid iso).length =
      (db.expenses.filter (fun e =>
        decide (dateOf e.expense_date = d) && decide (e.branch_id = bid))).length := by
  unfold expenseRows
  rw [List.length_map]

/-- The sales query yields exactly one row per matching sale record,
provided the branch id matches exactly one branch row and each matching
sale's menu item id matches exactly one menu item (the relational
key/foreign-key invariants). -/
theorem salesJoinRows_length (db : DB) (d bid : Nat) (iso : String)
    (hbr : (db.branches.filter (fun x => decide (x.id = bid))).length = 1)
    (hmi : ∀ sl ∈ db.sales, dateOf sl.sale_date = d → sl.branch_id = bid →
      (db.menu_items.filter (fun mi => decide (mi.id = sl.menu_item_id))).length = 1) :
    (salesJoinRows db d bid iso).length =
      (db.sales.filter (fun sl =>
        decide (dateOf sl.sale_date = d) && decide (sl.branch_id = bid))).length := by
  unfold salesJoinRows
  rw [List.length_flatMap]
  apply sum_map_eq_length
  intro sl hsl
  obtain ⟨hmem, hcond⟩ := List.mem_filter.mp hsl
  rw [Bool.and_eq_true, decide_eq_true_eq, decide_eq_true_eq] at hcond
  obtain ⟨hd, hb⟩ := hcond
  simp only [Function.comp_apply]
  rw [List.length_flatMap]
  rw [sum_map_eq_length _ _ (fun br _ => by
    simp only [Function.comp_apply, List.length_map]
    exact hmi sl hmem hd hb)]
  rw [hb]
  exact hbr

/-- Filtering nonempty rows by `keepRow` is filtering by "first cell is
not the target date". -/
theorem filter_keepRow_eq (l : List Row) (iso : String)
    (h : ∀ r ∈ l, r ≠ ([] : Row)) :
    l.filter (keepRow iso) =
      l.filter (fun r => decide (r.head? ≠ some (Cell.str iso))) := by
  apply List.filter_congr
  intro r hr
  cases r with
  | nil => exact absurd rfl (h _ hr)
  | cons c cs => simp [keepRow]

/-- C3: after `export_day` for date `d` and branch id `bid` (with the
branch present, the relational key invariants holding, and well-formed
prior tabs — header-or-empty first row, no empty rows), the branch's
sales tab is the header, the previously existing body rows whose date
column is not `d`'s ISO string, and one fresh row per individual sale
record of that branch dated `d` (no pre-aggregation); every fresh row
carries the target date.  The expenses tab likewise holds one row per
matching expense record. -/
theorem export_day_replaces_date_rows (db : DB) (d bid : Nat) (b : Branch)
    (s : SheetState)
    (hfind : db.branches.find? (fun x => decide (x.id = bid)) = some b)
    (hbr : (db.branches.filter (fun x => decide (x.id = bid))).length = 1)
    (hmi : ∀ sl ∈ db.sales, dateOf sl.sale_date = d → sl.branch_id = bid →
      (db.menu_items.filter (fun mi => decide (mi.id = sl.menu_item_id))).length = 1)
    (_hsheetS : s (TabId.sales bid) = [] ∨
      (s (TabId.sales bid)).head? = some headers_sales)
    (_hsheetE : s (TabId.expenses bid) = [] ∨
      (s (TabId.expenses bid)).head? = some headers_exp)
    (hrowsS : ∀ r ∈ s (TabId.sales bid), r ≠ ([] : Row))
    (hrowsE : ∀ r ∈ s (TabId.expenses bid), r ≠ ([] : Row)) :
    export_day db d (some bid) s (TabId.sales bid) =
      headers_sales ::
        (((s (TabId.sales bid)).drop 1).filter
            (fun r => decide (r.head? ≠ some (Cell.str (dateIso d)))) ++
          salesJoinRows db d bid (dateIso d)) ∧
    (salesJoinRows db d bid (dateIso d)).length =
      (db.sales.filter (fun sl =>
        decide (dateOf sl.sale_date = d) && decide (sl.branch_id = bid))).length ∧
    (∀ r ∈ salesJoinRows db d bid (dateIso d),
      r.head? = some (Cell.str (dateIso d))) ∧
    export_day db d (some bid) s (TabId.expenses bid) =
      headers_exp ::
        (((s (TabId.expenses bid)).drop 1).filter
            (fun r => decide (r.head? ≠ some (Cell.str (dateIso d)))) ++
          expenseRows db d bid (dateIso d)) ∧
    (expenseRows db d bid (dateIso d)).length =
      (db.expenses.filter (fun e =>
        decide (dateOf e.expense_date = d) && decide (e.branch_id = bid))).length ∧
    (∀ r ∈ expenseRows db d bid (dateIso d),
      r.head? = some (Cell.str (dateIso d))) := by
  have hb_id : b.id = bid := by
    have := List.find?_some hfind
    simpa using this
  have hscope : branchesToExport db (some bid) = [b] := by
    simp [branchesToExport, hfind]
  have hexp : export_day db d (some bid) s = processBranch db d s b := by
    simp [export_day, hscope]
  refine ⟨?_, salesJoinRows_length db d bid _ hbr hmi,
    salesJoinRows_head db d bid _, ?_,
    expenseRows_length db d bid _, expenseRows_head db d bid _⟩
  · rw [hexp, processBranch_apply]
    have : pointStep db d b (TabId.sales bid) (s (TabId.sales bid)) =
        tabFn db d (TabId.sales bid) (s (TabId.sales bid)) := by
      simp [pointStep, hb_id]
    rw [this]
    show _replace_data_for_date (s (TabId.sales bid)) (dateIso d)
        (salesJoinRows db d bid (dateIso d)) headers_sales = _
    rw [replace_closed_form,
      filter_keepRow_eq _ _
        (fun r hr => hrowsS r (List.mem_of_mem_drop hr))]
  · rw [hexp, processBranch_apply]
    have : pointStep db d b (TabId.expenses bid) (s (TabId.expenses bid)) =
        tabFn db d (TabId.expenses bid) (s (TabId.expenses bid)) := by
      simp [pointStep, hb_id]
    rw [this]
    show _replace_data_for_date (s (TabId.expenses bid)) (dateIso d)
        (expenseRows db d bid (dateIso d)) headers_exp = _
    rw [replace_closed_form,
      filter_keepRow_eq _ _
        (fun r hr => hrowsE r (List.mem_of_mem_drop hr))]

/-- C2: for every database state, target date and branch scope, running
`export_day` twice in succession (database unchanged in between) leaves
every worksheet with contents identical to running it once — the same row
set, with no duplicate rows accumulated by the second run. -/
theorem export_day_idempotent (db : DB) (d : Nat) (branch_id : Option Nat)
    (s : SheetState) :
    export_day db d branch_id (export_day db d branch_id s) =
      export_day db d branch_id s := by
  funext t
  unfold export_day
  rw [foldl_pointwise, foldl_pointwise]
  exact foldl_pointStep_idem db d t (branchesToExport db branch_id) (s t)

/-- Witness for C3: exporting day 2 of `dbOneBranch` (one matching sale,
one matching expense) onto an empty spreadsheet. -/
theorem export_day_replaces_date_rows_witness :
    dbOneBranch.branches.find? (fun x => decide (x.id = 1)) =
      some { id := 1, name := "Main", is_active := true } ∧
    (export_day dbOneBranch 2 (some 1) emptySheet (TabId.sales 1) =
      headers_sales ::
        (((emptySheet (TabId.sales 1)).drop 1).filter
            (fun r => decide (r.head? ≠ some (Cell.str (dateIso 2)))) ++
          salesJoinRows dbOneBranch 2 1 (dateIso 2)) ∧
    (salesJoinRows dbOneBranch 2 1 (dateIso 2)).length =
      (dbOneBranch.sales.filter (fun sl =>
        decide (dateOf sl.sale_date = 2) && decide (sl.branch_id = 1))).length ∧
    (∀ r ∈ salesJoinRows dbOneBranch 2 1 (dateIso 2),
      r.head? = some (Cell.str (dateIso 2))) ∧
    export_day dbOneBranch 2 (some 1) emptySheet (TabId.expenses 1) =
      headers_exp ::
        (((emptySheet (TabId.expenses 1)).drop 1).filter
            (fun r => decide (r.head? ≠ some (Cell.str (dateIso 2)))) ++
          expenseRows dbOneBranch 2 1 (dateIso 2)) ∧
    (expenseRows dbOneBranch 2 1 (dateIso 2)).length =
      (dbOneBranch.expenses.filter (fun e =>
        decide (dateOf e.expense_date = 2) && decide (e.branch_id = 1))).length ∧
    (∀ r ∈ expenseRows dbOneBranch 2 1 (dateIso 2),
      r.head? = some (Cell.str (dateIso 2)))) :=
  ⟨by decide,
   export_day_replaces_date_rows dbOneBranch 2 1
     { id := 1, name := "Main", is_active := true } emptySheet
     (by decide) (by decide) (by decide)
     (Or.inl rfl) (Or.inl rfl)
     (by simp [emptySheet]) (by simp [emptySheet])⟩

/-- C5: in the worker-gated mutations `record_sale` and `create_expense`,
a user object lacking a `role` attribute bypasses the worker permission
check entirely (the gate passes), and the operation proceeds exactly as
it would for an admin — for every database, hence regardless of which
permission rows exist for that user. -/
theorem missing_role_bypasses_worker_gate (db : DB) (u : User)
    (sale : DailySaleCreate) (expense : DailyExpenseCreate)
    (now newId : Nat) (hrole : u.role = none) :
    worker_full_access_gate db.permissions u sale.branch_id = .ok () ∧
    record_sale db u sale now newId =
      record_sale db { u with role := some "admin" } sale now newId ∧
    create_expense db u expense now newId =
      create_expense db { u with role := some "admin" } expense now newId := by
  have hg1 : ∀ bid, worker_full_access_gate db.permissions u bid = .ok () := by
    intro bid
    unfold worker_full_access_gate
    rw [if_neg (by simp [hrole])]
  have hg2 : ∀ bid, worker_full_access_gate db.permissions
      { u with role := some "admin" } bid = .ok () := by
    intro bid
    unfold worker_full_access_gate
    rw [if_neg (by simp)]
  refine ⟨hg1 _, ?_, ?_⟩
  · unfold record_sale
    rw [hg1, hg2]
  · unfold create_expense
    rw [hg1, hg2]

/-- Witness for C5: the role-less user passes the gate of `dbWithViewPerm`
(which holds only a `view_only` row for them) and both mutations behave
exactly as for an admin. -/
theorem missing_role_bypasses_worker_gate_witness :
    noRoleUser.role = none ∧
    (worker_full_access_gate dbWithViewPerm.permissions noRoleUser
        saleReq.branch_id = .ok () ∧
    record_sale dbWithViewPerm noRoleUser saleReq 0 99 =
      record_sale dbWithViewPerm { noRoleUser with role := some "admin" }
        saleReq 0 99 ∧
    create_expense dbWithViewPerm noRoleUser expenseReq 0 99 =
      create_expense dbWithViewPerm { noRoleUser with role := some "admin" }
        expenseReq 0 99) :=
  ⟨rfl,
   missing_role_bypasses_worker_gate dbWithViewPerm noRoleUser saleReq
     expenseReq 0 99 rfl⟩

/-- C6: a worker holding zero permission rows who issues an unscoped list
query (`get_sales_enhanced` or `get_expenses` with no `branch_id`) is
denied with the 403 `NoBranchPermissionsAssigned` error — never answered
with an empty-but-successful result and never treated as access to all
branches. -/
theorem zero_permission_worker_unscoped_denied (db : DB) (u : User)
    (date_filter item_id : Option Nat) (cat : Option String)
    (skip limit : Nat) (hrole : u.role = some "worker")
    (hperms : db.permissions.filter (fun p => decide (p.user_id = u.id)) = []) :
    get_sales_enhanced db u none date_filter item_id skip limit =
      .error .noBranchPermissionsAssigned ∧
    get_expenses db u none date_filter cat skip limit =
      .error .noBranchPermissionsAssigned := by
  constructor
  · unfold get_sales_enhanced
    simp [hrole, hperms]
  · unfold get_expenses
    simp [hrole, hperms]

/-- Witness for C6: worker 7 holds no permission rows in `dbOneBranch`;
both unscoped list queries answer 403. -/
theorem zero_permission_worker_unscoped_denied_witness :
    workerUser7.role = some "worker" ∧
    dbOneBranch.permissions.filter
      (fun p => decide (p.user_id = workerUser7.id)) = [] ∧
    (get_sales_enhanced dbOneBranch workerUser7 none none none 0 100 =
      .error .noBranchPermissionsAssigned ∧
    get_expenses dbOneBranch workerUser7 none none none 0 100 =
      .error .noBranchPermissionsAssigned) :=
  ⟨rfl, rfl,
   zero_permission_worker_unscoped_denied dbOneBranch workerUser7 none none
     none 0 100 rfl rfl⟩


/-! ### Permission upsert (C7) -/

/-- `updateFirst` with a pair-preserving rewrite keeps the number of
matching rows unchanged. -/
theorem countP_updateFirst {α : Type} (p : α → Bool) (f : α → α)
    (l : List α) (hf : ∀ x, p (f x) = p x) :
    ((updateFirst p f l).filter p).length = (l.filter p).length := by
  induction l with
  | nil => rfl
  | cons a as ih =>
    by_cases ha : p a = true
    · simp [updateFirst, ha, List.filter_cons, hf]
    · have ha' : p a = false := by simpa using ha
      simp [updateFirst, ha', List.filter_cons, ih]

/-- When at most one row matches, every matching row of `updateFirst p f l`
satisfies any property that `f` establishes on matching rows. -/
theorem updateFirst_all {α : Type} (p : α → Bool) (f : α → α) (l : List α)
    (hcount : (l.filter p).length ≤ 1) (Q : α → Prop)
    (hQ : ∀ x, p x = true → Q (f x)) :
    ∀ x ∈ updateFirst p f l, p x = true → Q x := by
  induction l with
  | nil => intro x hx; simp [updateFirst] at hx
  | cons a as ih =>
    intro x hx hpx
    by_cases ha : p a = true
    · simp only [updateFirst, ha, if_true] at hx
      rcases List.mem_cons.mp hx with rfl | hx2
      · exact hQ a ha
      · exfalso
        rw [List.filter_cons_of_pos ha] at hcount
        have hnil : as.filter p = [] := by
          have := Nat.le_of_succ_le_succ hcount
          exact List.eq_nil_of_length_eq_zero (Nat.le_zero.mp this)
        have : x ∈ as.filter p := List.mem_filter.mpr ⟨hx2, hpx⟩
        rw [hnil] at this
        exact (List.not_mem_nil x) this
    · have ha' : p a = false := by simpa using ha
      simp only [updateFirst, ha', Bool.false_eq_true, if_false] at hx
      rcases List.mem_cons.mp hx with rfl | hx2
      · rw [hpx] at ha'; cases ha'
      · refine ih ?_ x hx2 hpx
        rw [List.filter_cons_of_neg (by simp [ha'])] at hcount
        exact hcount

/-- `first()` returning nothing is exactly the filtered table being
empty. -/
theorem findPermission_none_filter (perms : List UserBranchPermission)
    (uid bid : Nat) :
    findPermission perms uid bid = none ↔
      perms.filter (pairPred uid bid) = [] := by
  unfold findPermission pairPred
  rw [List.find?_eq_none, List.filter_eq_nil_iff]

/-- Successful `assign_branch_permission` either rewrote the first
matching row in place (when one existed) or appended a single fresh row
(when none did). -/
theorem assign_ok_shape (db : DB) (u : User) (uid bid : Nat)
    (level : String) (t idn : Nat) (db' : DB)
    (h : assign_branch_permission db u uid bid level t idn = .ok db') :
    (findPermission db.permissions uid bid ≠ none →
      db'.permissions = updateFirst (pairPred uid bid)
        (fun p => { p with
          permission_level :=
            if level = "full_access" then PermissionLevel.full_access
            else PermissionLevel.view_only,
          updated_at := t })
        db.permissions) ∧
    (findPermission db.permissions uid bid = none →
      db'.permissions = db.permissions ++
        [{ id := idn, user_id := uid, branch_id := bid,
           permission_level :=
             if level = "full_access" then PermissionLevel.full_access
             else PermissionLevel.view_only,
           created_at := t, updated_at := t }]) := by
  unfold assign_branch_permission at h
  by_cases hadmin : ¬ u.role = some "admin"
  · rw [if_pos hadmin] at h
    exact absurd h (by simp)
  · rw [if_neg hadmin] at h
    by_cases hval : level ≠ "view_only" ∧ level ≠ "full_access"
    · rw [if_pos hval] at h
      exact absurd h (by simp)
    · rw [if_neg hval] at h
      cases hfind : findPermission db.permissions uid bid with
      | some p0 =>
        rw [hfind] at h
        injection h with h2
        constructor
        · intro _
          rw [← h2]
          rfl
        · intro hn
          exact absurd hn (by simp)
      | none =>
        rw [hfind] at h
        injection h with h2
        constructor
        · intro hn
          exact absurd rfl hn
        · intro _
          rw [← h2]

/-- C7: `assign_branch_permission` never creates a second row for an
existing `(user_id, branch_id)` pair — the number of matching rows after
a successful call is `1` when it was `0` and is unchanged otherwise — and
in particular, starting from a table with at most one matching row (the
database's unique constraint), granting `view_only` and then
`full_access` leaves exactly one row for the pair, whose level is
`full_access`. -/
theorem assign_branch_permission_upsert (db : DB) (u : User)
    (uid bid t1 t2 id1 id2 : Nat) (_hadmin : u.role = some "admin")
    (hatmost : (db.permissions.filter (pairPred uid bid)).length ≤ 1) :
    (∀ level t idn db',
      assign_branch_permission db u uid bid level t idn = .ok db' →
      (db'.permissions.filter (pairPred uid bid)).length =
        if (db.permissions.filter (pairPred uid bid)).length = 0 then 1
        else (db.permissions.filter (pairPred uid bid)).length) ∧
    (∀ db1 db2,
      assign_branch_permission db u uid bid "view_only" t1 id1 = .ok db1 →
      assign_branch_permission db1 u uid bid "full_access" t2 id2 = .ok db2 →
      (db2.permissions.filter (pairPred uid bid)).length = 1 ∧
      ∀ p ∈ db2.permissions, pairPred uid bid p = true →
        p.permission_level = PermissionLevel.full_access) := by
  have hpair_pres : ∀ (lv : PermissionLevel) (t : Nat)
      (x : UserBranchPermission),
      pairPred uid bid { x with permission_level := lv, updated_at := t } =
        pairPred uid bid x := by
    intro lv t x
    simp [pairPred]
  have key : ∀ level t idn db',
      assign_branch_permission db u uid bid level t idn = .ok db' →
      (db'.permissions.filter (pairPred uid bid)).length =
        if (db.permissions.filter (pairPred uid bid)).length = 0 then 1
        else (db.permissions.filter (pairPred uid bid)).length := by
    intro level t idn db' h
    obtain ⟨hupd, hins⟩ := assign_ok_shape db u uid bid level t idn db' h
    cases hfind : findPermission db.permissions uid bid with
    | none =>
      have hnil : db.permissions.filter (pairPred uid bid) = [] :=
        (findPermission_none_filter _ _ _).mp hfind
      rw [hins hfind, List.filter_append, hnil]
      simp [pairPred]
    | some p0 =>
      have hne : findPermission db.permissions uid bid ≠ none := by
        rw [hfind]; simp
      rw [hupd hne, countP_updateFirst _ _ _ (hpair_pres _ _)]
      have hpos : (db.permissions.filter (pairPred uid bid)).length ≠ 0 := by
        intro h0
        have h1 : db.permissions.filter (pairPred uid bid) = [] :=
          List.eq_nil_of_length_eq_zero h0
        rw [← findPermission_none_filter] at h1
        rw [hfind] at h1
        exact absurd h1 (by simp)
      rw [if_neg hpos]
  refine ⟨key, ?_⟩
  intro db1 db2 h1 h2
  have hcount1 : (db1.permissions.filter (pairPred uid bid)).length = 1 := by
    have hv := key "view_only" t1 id1 db1 h1
    by_cases h0 : (db.permissions.filter (pairPred uid bid)).length = 0
    · rw [if_pos h0] at hv; exact hv
    · rw [if_neg h0] at hv; omega
  obtain ⟨hupd2, _⟩ := assign_ok_shape db1 u uid bid "full_access" t2 id2 db2 h2
  have hfind2 : findPermission db1.permissions uid bid ≠ none := by
    intro hn
    have : db1.permissions.filter (pairPred uid bid) = [] :=
      (findPermission_none_filter _ _ _).mp hn
    rw [this] at hcount1
    exact absurd hcount1 (by simp)
  have hperm2 := hupd2 hfind2
  constructor
  · rw [hperm2, countP_updateFirst _ _ _ (hpair_pres _ _)]
    exact hcount1
  · rw [hperm2]
    exact updateFirst_all (pairPred uid bid) _ db1.permissions
      (Nat.le_of_eq hcount1)
      (fun x => x.permission_level = PermissionLevel.full_access)
      (fun x _ => by simp)

/-- Witness for C7: granting user 7 `view_only` then `full_access` on
branch 1 of `dbOneBranch` leaves exactly one matching row, at level
`full_access`. -/
theorem assign_branch_permission_upsert_witness :
    adminUser7.role = some "admin" ∧
    (dbOneBranch.permissions.filter (pairPred 7 1)).length ≤ 1 ∧
    ((({ dbOneBranch with permissions :=
          [{ id := 50, user_id := 7, branch_id := 1,
             permission_level := .full_access, created_at := 1,
             updated_at := 2 }] } : DB).permissions.filter
        (pairPred 7 1)).length = 1 ∧
     ∀ p ∈ ({ dbOneBranch with permissions :=
          [{ id := 50, user_id := 7, branch_id := 1,
             permission_level := .full_access, created_at := 1,
             updated_at := 2 }] } : DB).permissions,
        pairPred 7 1 p = true →
        p.permission_level = PermissionLevel.full_access) :=
  ⟨rfl, by decide,
   (assign_branch_permission_upsert dbOneBranch adminUser7 7 1 1 2 50 51
      rfl (by decide)).2
     { dbOneBranch with permissions :=
        [{ id := 50, user_id := 7, branch_id := 1,
           permission_level := .view_only, created_at := 1,
           updated_at := 1 }] }
     { dbOneBranch with permissions :=
        [{ id := 50, user_id := 7, branch_id := 1,
           permission_level := .full_access, created_at := 1,
           updated_at := 2 }] }
     rfl rfl⟩


/-- C8: for an admin caller and an existing branch, `delete_branch` fails
with the 400 `Cannot delete branch ...` error whenever at least one menu
item, sale or expense references the branch (an error return leaves the
database unchanged); when nothing references it, exactly the branch row
is removed and every other table is untouched; and any successful
deletion implies no referencing record existed. -/
theorem delete_branch_blocked_iff_referenced (db : DB) (u : User)
    (bid : Nat) (b : Branch) (hadmin : u.role = some "admin")
    (hfind : db.branches.find? (fun x => decide (x.id = bid)) = some b) :
    ((db.menu_items.any (fun m => decide (m.branch_id = some bid)) ||
        db.sales.any (fun s => decide (s.branch_id = bid)) ||
        db.expenses.any (fun e => decide (e.branch_id = bid))) = true →
      delete_branch db u bid = .error .branchHasAssociations) ∧
    ((db.menu_items.any (fun m => decide (m.branch_id = some bid)) ||
        db.sales.any (fun s => decide (s.branch_id = bid)) ||
        db.expenses.any (fun e => decide (e.branch_id = bid))) = false →
      delete_branch db u bid =
        .ok { db with
          branches := removeFirst (fun x => decide (x.id = bid)) db.branches }) ∧
    (∀ db', delete_branch db u bid = .ok db' →
      (db.menu_items.any (fun m => decide (m.branch_id = some bid)) ||
        db.sales.any (fun s => decide (s.branch_id = bid)) ||
        db.expenses.any (fun e => decide (e.branch_id = bid))) = false ∧
      db'.branches = removeFirst (fun x => decide (x.id = bid)) db.branches ∧
      db'.menu_items = db.menu_items ∧ db'.sales = db.sales ∧
      db'.expenses = db.expenses ∧ db'.permissions = db.permissions) := by
  have hred : delete_branch db u bid =
      (if (db.menu_items.any (fun m => decide (m.branch_id = some bid)) ||
          db.sales.any (fun s => decide (s.branch_id = bid)) ||
          db.expenses.any (fun e => decide (e.branch_id = bid))) then
        Except.error ApiError.branchHasAssociations
      else
        Except.ok { db with
          branches := removeFirst (fun x => decide (x.id = bid)) db.branches }) := by
    simp [delete_branch, hadmin, hfind]
  refine ⟨?_, ?_, ?_⟩
  · intro h
    rw [hred, if_pos (by rw [h])]
  · intro h
    rw [hred, if_neg (by rw [h]; exact Bool.false_ne_true)]
  · intro db' h
    rw [hred] at h
    cases hass : (db.menu_items.any (fun m => decide (m.branch_id = some bid)) ||
        db.sales.any (fun s => decide (s.branch_id = bid)) ||
        db.expenses.any (fun e => decide (e.branch_id = bid))) with
    | true =>
      rw [if_pos (by rw [hass])] at h
      exact absurd h (by simp)
    | false =>
      rw [if_neg (by rw [hass]; exact Bool.false_ne_true)] at h
      injection h with h2
      exact ⟨rfl, by rw [← h2], by rw [← h2], by rw [← h2], by rw [← h2],
        by rw [← h2]⟩

/-- Witness for C8 at `dbOneBranch`: branch 1 is referenced by a menu
item, a sale and an expense, so deleting it fails with the associations
error. -/
theorem delete_branch_blocked_iff_referenced_witness :
    adminUser7.role = some "admin" ∧
    dbOneBranch.branches.find? (fun x => decide (x.id = 1)) =
      some { id := 1, name := "Main", is_active := true } ∧
    (((dbOneBranch.menu_items.any (fun m => decide (m.branch_id = some 1)) ||
        dbOneBranch.sales.any (fun s => decide (s.branch_id = 1)) ||
        dbOneBranch.expenses.any (fun e => decide (e.branch_id = 1))) = true →
      delete_branch dbOneBranch adminUser7 1 =
        .error .branchHasAssociations) ∧
    ((dbOneBranch.menu_items.any (fun m => decide (m.branch_id = some 1)) ||
        dbOneBranch.sales.any (fun s => decide (s.branch_id = 1)) ||
        dbOneBranch.expenses.any (fun e => decide (e.branch_id = 1))) = false →
      delete_branch dbOneBranch adminUser7 1 =
        .ok { dbOneBranch with
          branches := removeFirst (fun x => decide (x.id = 1))
            dbOneBranch.branches }) ∧
    (∀ db', delete_branch dbOneBranch adminUser7 1 = .ok db' →
      (dbOneBranch.menu_items.any (fun m => decide (m.branch_id = some 1)) ||
        dbOneBranch.sales.any (fun s => decide (s.branch_id = 1)) ||
        dbOneBranch.expenses.any (fun e => decide (e.branch_id = 1))) = false ∧
      db'.branches = removeFirst (fun x => decide (x.id = 1))
        dbOneBranch.branches ∧
      db'.menu_items = dbOneBranch.menu_items ∧
      db'.sales = dbOneBranch.sales ∧
      db'.expenses = dbOneBranch.expenses ∧
      db'.permissions = dbOneBranch.permissions)) :=
  ⟨rfl, by decide,
   delete_branch_blocked_iff_referenced dbOneBranch adminUser7 1
     { id := 1, name := "Main", is_active := true } rfl (by decide)⟩

end Bruvver
